import Mathlib

/-!
Verification of the data-aggregation engine of the BLT-Hackathons dashboard
(`js/index.js`, class `GitHubAPI`).

The JavaScript is embedded shallowly:

* GitHub records (pull requests, issues, reviews) become Lean structures whose
  fields keep the JSON names used by the source (`created_at`, `merged_at`,
  `html_url`, ...).  Timestamps are natural numbers counting seconds since the
  epoch; the UTC calendar date of a timestamp (`toISOString().split(T)[0]` in
  the source) is its day index `t / 86400`.
* JavaScript objects and `Map`s used as dictionaries become association lists
  in insertion order, with `mapGet`/`mapSet` mirroring read and
  create-or-update (an existing key keeps its position, a new key is appended,
  exactly as JavaScript property order behaves).
* `String.prototype.includes` becomes `sIncludes`; `toLowerCase` becomes
  `strLower` (ASCII lowering, which is all the source compares against).
* `async` methods become pure functions; the network is passed in as data
  (a list of pages for the paginated endpoints, an explicit outcome for a
  single request).  `Promise.allSettled` becomes folding over `Except`
  results.  Mutable state that a method touches (the URL cache, the
  participants map) is passed and returned explicitly.
-/

namespace GH

/-! ## String primitives (String.prototype.includes / toLowerCase) -/

/-- ASCII lowering of one character, the fragment of
`String.prototype.toLowerCase` exercised by the source (it only compares
against the ASCII needles "bot", "copilot", "pr merged by copilot"). -/
def lowChar (c : Char) : Char :=
  if 65 ≤ c.toNat ∧ c.toNat ≤ 90 then Char.ofNat (c.toNat + 32) else c

/-- Embedding of `s.toLowerCase()` on the ASCII range. -/
def strLower (s : String) : String := ⟨s.data.map lowChar⟩

/-- Whether the character list `needle` is an initial segment of `l`. -/
def charsLead : List Char → List Char → Bool
  | [], _ => true
  | _ :: _, [] => false
  | a :: as, b :: bs => a == b && charsLead as bs

/-- Whether `needle` occurs contiguously inside `hay`. -/
def charsContain (hay needle : List Char) : Bool :=
  match hay with
  | [] => charsLead needle []
  | _ :: rest => charsLead needle hay || charsContain rest needle

/-- Embedding of `s.includes(sub)`. -/
def sIncludes (s sub : String) : Bool := charsContain s.data sub.data

/-! ## Association-list dictionaries (JavaScript objects / Maps) -/

/-- Embedding of a dictionary read (`m[k]`, `m.get(k)`, `m.has(k)`). -/
def mapGet {κ α : Type} [BEq κ] : List (κ × α) → κ → Option α
  | [], _ => none
  | (k, v) :: rest, key => if k == key then some v else mapGet rest key

/-- Embedding of a dictionary write (`m[k] = v`, `m.set(k, v)`): an existing
key is overwritten in place, a new key is appended, matching JavaScript
insertion order. -/
def mapSet {κ α : Type} [BEq κ] : List (κ × α) → κ → α → List (κ × α)
  | [], key, v => [(key, v)]
  | (k, w) :: rest, key, v =>
    if k == key then (k, v) :: rest else (k, w) :: mapSet rest key v

/-! ## Data model -/

/-- A pull-request record as consumed by `GitHubAPI`: `pr.user.login`,
`pr.user.avatar_url`, `pr.user.html_url`, `pr.title`, `pr.created_at`,
`pr.merged_at` and the `repository` identifier the collector attaches.
Timestamps are seconds since the epoch; `merged_at` is `none` while the
record is unmerged (`null` in the source). -/
structure PR where
  login : String
  avatar_url : String
  html_url : String
  title : String
  created_at : Nat
  merged_at : Option Nat
  repository : String
deriving DecidableEq

/-- An issue record: `state` is the GitHub state string, `closed_at` is
`none` while open, `pull_request` marks records that are structurally pull
requests in the issues listing. -/
structure Issue where
  login : String
  created_at : Nat
  closed_at : Option Nat
  state : String
  pull_request : Bool
  repository : String
deriving DecidableEq

/-- A review record as produced by `getAllReviews`: the reviewer
(`review.user`), the approval `state` (for example `"APPROVED"` or
`"DISMISSED"`), the submission time, and the pull-request link the collector
attaches (`pull_request_url`, absent when the raw review is used directly). -/
structure Review where
  login : String
  avatar_url : String
  html_url : String
  state : String
  submitted_at : Nat
  pull_request_url : Option String
deriving DecidableEq

/-- One contributor rollup, the value stored in the `leaderboard` object and
the `participants` map of `processPRData`.  The `user` sub-object of the
source is determined by `username` (its `email` is always empty and its `id`
is `contributor_` followed by the username), so only `username` is kept. -/
structure Participant where
  username : String
  count : Nat
  prs : List PR
  avatar : String
  url : String
  reviews : List Review
  reviewCount : Nat
  mergedCount : Nat
deriving DecidableEq

/-- Per-repository counters (`repoStats` values). -/
structure RepoStat where
  total : Nat
  merged : Nat
  issues : Nat
  closedIssues : Nat
deriving DecidableEq

/-- One daily-activity bucket (`{ total, merged }`). -/
structure DayCount where
  total : Nat
  merged : Nat
deriving DecidableEq

/-- The result record of `processPRData`.  `participants` is keyed by
username, `dailyActivity` by day index, `repoStats` by repository
identifier; all three keep JavaScript insertion order. -/
structure Stats where
  totalPRs : Nat
  mergedPRs : Nat
  participants : List (String × Participant)
  dailyActivity : List (Nat × DayCount)
  repoStats : List (String × RepoStat)
deriving DecidableEq

/-! ## Dates -/

/-- UTC calendar date of a timestamp, the embedding of
`new Date(t).toISOString().split(T)[0]`. -/
def dayOf (t : Nat) : Nat := t / 86400

/-- The date-initialization loop of `processPRData` exactly as written:
`currentDate` starts at `startDate` and advances by one day
(`setDate(getDate() + 1)`, which in UTC adds 86400 seconds) while
`currentDate <= endDate`, emitting the calendar date of each position. -/
def initDaysGo (e : Nat) (cur : Nat) : List Nat :=
  if cur ≤ e then dayOf cur :: initDaysGo e (cur + 86400) else []
termination_by e + 1 - cur
decreasing_by omega

/-- Fuel-indexed version of `initDaysGo` (recursion on the fuel is
structural, so concrete runs of the aggregator reduce inside the kernel).
`initDaysFuel_eq_go` shows the fuel used by `initDays` always suffices. -/
def initDaysFuel : Nat → Nat → Nat → List Nat
  | 0, _, _ => []
  | n + 1, e, cur => if cur ≤ e then dayOf cur :: initDaysFuel n e (cur + 86400) else []

/-- The list of calendar dates the initialization loop of `processPRData`
walks through, from `startDate` to `endDate` inclusive. -/
def initDays (s e : Nat) : List Nat := initDaysFuel (e + 1 - s) e s


/-! ## Automation classification (processPRData / processReviewData) -/

/-- The bot check of the source: the login contains the bracketed bot
marker, or its lowering contains `bot`. -/
def isBotLogin (username : String) : Bool :=
  sIncludes username "[bot]" || sIncludes (strLower username) "bot"

/-- The Copilot check of `processPRData`: the login contains `copilot`, or
the title contains `pr merged by copilot` or `copilot` (all after
lowering). -/
def isCopilotPR (username title : String) : Bool :=
  sIncludes (strLower username) "copilot" ||
    sIncludes (strLower title) "pr merged by copilot" ||
    sIncludes (strLower title) "copilot"

/-- The Copilot check of `processReviewData`: the login contains `copilot`
(reviews carry no title, so there is no title clause). -/
def isCopilotReviewer (username : String) : Bool :=
  sIncludes (strLower username) "copilot"

/-! ## processPRData -/

/-- Internal accumulator of the `prs.forEach` loop of `processPRData`:
the merged counter, the `leaderboard` object (keyed by
`contributor_username`), the daily-activity object and the repo-stats
object. -/
structure PRAcc where
  mergedPRs : Nat
  leaderboard : List (String × Participant)
  dailyActivity : List (Nat × DayCount)
  repoStats : List (String × RepoStat)
deriving DecidableEq

/-- The leaderboard create-or-update of `processPRData`: an existing entry
gets `count += 1`, the record appended and, when merged, `mergedCount += 1`;
a missing entry is created with the counters at one record. -/
def lbUpsert (lb : List (String × Participant)) (pr : PR) (isMerged : Bool) :
    List (String × Participant) :=
  let username := pr.login
  let contributorId := "contributor_" ++ username
  match mapGet lb contributorId with
  | some p =>
    mapSet lb contributorId
      { p with
        count := p.count + 1
        prs := p.prs ++ [pr]
        mergedCount := if isMerged then p.mergedCount + 1 else p.mergedCount }
  | none =>
    mapSet lb contributorId
      { username := username
        count := 1
        prs := [pr]
        avatar := pr.avatar_url
        url := pr.html_url
        reviews := []
        reviewCount := 0
        mergedCount := if isMerged then 1 else 0 }

/-- The daily-activity initialization inside the `forEach` body: every date
of the window is assigned a fresh zero bucket (overwriting whatever count
the previous iterations accumulated). -/
def resetDaily (s e : Nat) (m : List (Nat × DayCount)) : List (Nat × DayCount) :=
  (initDays s e).foldl (fun m d => mapSet m d ⟨0, 0⟩) m

/-- The repo-stats update of the `forEach` body: create the entry if absent,
then `total += 1` and, when merged, `merged += 1`. -/
def repoUpsert (rs : List (String × RepoStat)) (repo : String) (isMerged : Bool) :
    List (String × RepoStat) :=
  let base := (mapGet rs repo).getD ⟨0, 0, 0, 0⟩
  mapSet rs repo
    { base with
      total := base.total + 1
      merged := if isMerged then base.merged + 1 else base.merged }

/-- One iteration of the `prs.forEach` body of `processPRData`. -/
def prStep (s e : Nat) (acc : PRAcc) (pr : PR) : PRAcc :=
  let isMerged := pr.merged_at.isSome
  let lb :=
    if !isBotLogin pr.login && !isCopilotPR pr.login pr.title then
      lbUpsert acc.leaderboard pr isMerged
    else acc.leaderboard
  let da0 := resetDaily s e acc.dailyActivity
  let createdDate := dayOf pr.created_at
  let relevantByCreation := decide (s ≤ pr.created_at) && decide (pr.created_at ≤ e)
  let da1 :=
    match mapGet da0 createdDate with
    | some c =>
      if relevantByCreation then mapSet da0 createdDate { c with total := c.total + 1 }
      else da0
    | none => da0
  let da2 :=
    match pr.merged_at with
    | some m =>
      match mapGet da1 (dayOf m) with
      | some c => mapSet da1 (dayOf m) { c with merged := c.merged + 1 }
      | none => da1
    | none => da1
  { mergedPRs := if isMerged then acc.mergedPRs + 1 else acc.mergedPRs
    leaderboard := lb
    dailyActivity := da2
    repoStats := repoUpsert acc.repoStats pr.repository isMerged }

/-- Embedding of `GitHubAPI.processPRData(prs, startDate, endDate)`:
fold the `forEach` body over the record list, then build the participants
map from the leaderboard values keyed by username. -/
def processPRData (prs : List PR) (s e : Nat) : Stats :=
  let acc := prs.foldl (prStep s e)
    { mergedPRs := 0, leaderboard := [], dailyActivity := [], repoStats := [] }
  { totalPRs := prs.length
    mergedPRs := acc.mergedPRs
    participants := acc.leaderboard.map (fun kv => (kv.2.username, kv.2))
    dailyActivity := acc.dailyActivity
    repoStats := acc.repoStats }

/-! ## processReviewData -/

/-- JavaScript or-else on an optional string
(`review.pull_request_url or review.html_url`): an absent or empty left
operand falls back to the right one. -/
def jsOrStr (a : Option String) (b : String) : String :=
  match a with
  | some str => if str == "" then b else str
  | none => b

/-- The review object actually stored on the participant:
its `html_url` is replaced by `pull_request_url` when that is present. -/
def reviewView (review : Review) : Review :=
  { review with html_url := jsOrStr review.pull_request_url review.html_url }

/-- A zero-initialized rollup created for a reviewer with no PR-derived
entry. -/
def freshReviewParticipant (review : Review) : Participant :=
  { username := review.login
    count := 0
    prs := []
    avatar := review.avatar_url
    url := review.html_url
    reviews := []
    reviewCount := 0
    mergedCount := 0 }

/-- One iteration of the `reviews.forEach` body of `processReviewData`. -/
def reviewStep (participants : List (String × Participant)) (review : Review) :
    List (String × Participant) :=
  let username := review.login
  if !isBotLogin username && !isCopilotReviewer username && !(review.state == "DISMISSED") then
    let ps :=
      if (mapGet participants username).isSome then participants
      else mapSet participants username (freshReviewParticipant review)
    match mapGet ps username with
    | some p =>
      mapSet ps username
        { p with reviews := p.reviews ++ [reviewView review], reviewCount := p.reviewCount + 1 }
    | none => ps
  else participants

/-- Embedding of `GitHubAPI.processReviewData(reviews, participants)`;
the source mutates `participants` in place, the embedding returns the
updated map. -/
def processReviewData (reviews : List Review) (participants : List (String × Participant)) :
    List (String × Participant) :=
  reviews.foldl reviewStep participants


/-! ## Leaderboards -/

/-- One produced leaderboard row of `generateLeaderboard`.  The `user`
sub-object and the duplicated display fields of the source are determined
by these fields (`count` and `mergedCount` are both set to the merged
count). -/
structure LBEntry where
  username : String
  count : Nat
  prs : List PR
  avatar : String
  url : String
  mergedCount : Nat
deriving DecidableEq

/-- One produced row of `generateReviewLeaderboard`. -/
structure RLBEntry where
  username : String
  count : Nat
  reviews : List Review
  avatar : String
  url : String
  reviewCount : Nat
deriving DecidableEq

/-- The view projection at the end of `generateLeaderboard`. -/
def lbView (p : Participant) : LBEntry :=
  { username := p.username
    count := p.mergedCount
    prs := p.prs
    avatar := p.avatar
    url := p.url
    mergedCount := p.mergedCount }

/-- The view projection at the end of `generateReviewLeaderboard`. -/
def rlbView (p : Participant) : RLBEntry :=
  { username := p.username
    count := p.reviewCount
    reviews := p.reviews
    avatar := p.avatar
    url := p.url
    reviewCount := p.reviewCount }

/-- Embedding of `GitHubAPI.generateLeaderboard(participants, limit)`:
take the map values, keep those with a positive merged count, sort
descending by merged count (JavaScript sort is stable, as is insertion
sort), truncate to `limit`, project to view rows. -/
def generateLeaderboard (participants : List (String × Participant)) (limit : Nat) :
    List LBEntry :=
  ((((participants.map Prod.snd).filter (fun p => decide (0 < p.mergedCount))).insertionSort
      (fun a b => b.mergedCount ≤ a.mergedCount)).take limit).map lbView

/-- Embedding of `GitHubAPI.generateReviewLeaderboard(participants, limit)`. -/
def generateReviewLeaderboard (participants : List (String × Participant)) (limit : Nat) :
    List RLBEntry :=
  ((((participants.map Prod.snd).filter (fun p => decide (0 < p.reviewCount))).insertionSort
      (fun a b => b.reviewCount ≤ a.reviewCount)).take limit).map rlbView

/-! ## Paginated collector (fetchPullRequests) -/

/-- The window-relevance test of the record loop of `fetchPullRequests`:
created inside the window, or merged and the merge time inside the window
(all bounds inclusive). -/
def relevantPR (s e : Nat) (pr : PR) : Bool :=
  let relevantByCreation := decide (s ≤ pr.created_at) && decide (pr.created_at ≤ e)
  let relevantByMerge :=
    match pr.merged_at with
    | some m => decide (s ≤ m) && decide (m ≤ e)
    | none => false
  relevantByCreation || relevantByMerge

/-- The copy-with-repository step (`{ ...pr, repository: owner/repo }`). -/
def attachRepo (repoId : String) (pr : PR) : PR := { pr with repository := repoId }

/-- The `for (const pr of prs)` loop over one page of `fetchPullRequests`:
push a relevant record (with the repository attached), and stop the page as
soon as a record created before the window start appears (that check runs
after the push).  Returns the pushed records and the early-exit flag
`foundOldPR`. -/
def scanPage (s e : Nat) (repoId : String) : List PR → List PR × Bool
  | [] => ([], false)
  | pr :: rest =>
    let included := if relevantPR s e pr then [attachRepo repoId pr] else []
    if pr.created_at < s then (included, true)
    else
      let r := scanPage s e repoId rest
      (included ++ r.1, r.2)

/-- The `while (page <= maxPages)` loop of `fetchPullRequests`.  The remote
listing is passed in as `pages` (the response to the request for 1-based
page `i` is entry `i - 1`, and `[]` past the end, matching an exhausted
history).  The result pairs the collected records with the number of page
requests issued; the loop stops on an empty page, on the early-exit flag,
or when the fuel (the remaining allowance out of `maxPages = 20`) runs
out. -/
def fetchPagesGo (s e : Nat) (repoId : String) (pages : List (List PR)) :
    Nat → Nat → List PR × Nat
  | _, 0 => ([], 0)
  | pageIdx, fuel + 1 =>
    let prsPage := pages.getD pageIdx []
    if prsPage.isEmpty then ([], 1)
    else
      let sp := scanPage s e repoId prsPage
      if sp.2 then (sp.1, 1)
      else
        let rest := fetchPagesGo s e repoId pages (pageIdx + 1) fuel
        (sp.1 ++ rest.1, rest.2 + 1)

/-- Embedding of `GitHubAPI.fetchPullRequests(owner, repo, startDate,
endDate)` run against the page listing `pages`: collected records plus the
number of page requests issued.  The per-page failure handler is not
modeled (all supplied pages are successful responses). -/
def fetchPullRequests (pages : List (List PR)) (owner repo : String) (s e : Nat) :
    List PR × Nat :=
  fetchPagesGo s e (owner ++ "/" ++ repo) pages 0 20

/-! ## Multi-repository fan-out (getAllPullRequests / getAllIssues) -/

/-- The fulfilled-only accumulation step shared by the fan-out methods:
a fulfilled promise value is appended to the accumulator, a rejected one is
skipped (after logging). -/
def settleAppend {α : Type} (acc : List α) (result : Except String (List α)) : List α :=
  match result with
  | .ok value => acc ++ value
  | .error _ => acc

/-- Embedding of `GitHubAPI.getAllPullRequests(repositories, startDate,
endDate)`.  The per-repository collection is abstracted as `fetch` (an
`Except` models a rejected promise); `Promise.allSettled` plus the
fulfilled-only `forEach` become a fold appending fulfilled values in
repository order and skipping failures. -/
def getAllPullRequests (fetch : String → Except String (List PR))
    (repositories : List String) : List PR :=
  (repositories.map fetch).foldl settleAppend []

/-- Embedding of `GitHubAPI.getAllIssues(repositories, startDate, endDate)`,
identical combinator over issue collection. -/
def getAllIssues (fetch : String → Except String (List Issue))
    (repositories : List String) : List Issue :=
  (repositories.map fetch).foldl settleAppend []

/-! ## Rate-limited fetch client (makeRequest) -/

/-- One cache entry: `{ data, timestamp }`. -/
structure CacheEntry where
  data : String
  timestamp : Nat
deriving DecidableEq

/-- What the network does for one request: a parsed successful payload, a
non-success HTTP status, or a transport failure.  (The payload type stands
in for parsed JSON.) -/
inductive FetchOutcome
  | success (data : String)
  | httpError (status : Nat)
  | networkError (message : String)
deriving DecidableEq

/-- Whether the cache holds a fresh entry for `url`: present and younger
than five minutes (`Date.now()` in milliseconds). -/
def cacheFresh (cache : List (String × CacheEntry)) (url : String) (now : Nat) : Bool :=
  match mapGet cache url with
  | some entry => decide (now - entry.timestamp < 5 * 60 * 1000)
  | none => false

/-- The network branch of `makeRequest`: on success parse, store
`{ data, timestamp: now }` under the URL and return the payload; on a
non-success status throw the formatted error; on transport failure rethrow.
The thrown value is modeled as the `Except` error string. -/
def doFetch (cache : List (String × CacheEntry)) (url : String) (now : Nat)
    (outcome : FetchOutcome) : Except String String × List (String × CacheEntry) :=
  match outcome with
  | .success d => (.ok d, mapSet cache url { data := d, timestamp := now })
  | .httpError status => (.error ("GitHub API error: " ++ toString status), cache)
  | .networkError message => (.error message, cache)

/-- Embedding of `GitHubAPI.makeRequest(url, useCache)`: return a fresh
cached payload without touching the network, otherwise perform the request
(`outcome`).  Returns the result together with the cache afterwards. -/
def makeRequest (cache : List (String × CacheEntry)) (url : String) (useCache : Bool)
    (now : Nat) (outcome : FetchOutcome) :
    Except String String × List (String × CacheEntry) :=
  if useCache && cacheFresh cache url now then
    match mapGet cache url with
    | some entry => (.ok entry.data, cache)
    | none => doFetch cache url now outcome
  else doFetch cache url now outcome

/-! ## Explicit-state wrappers

The aggregation and leaderboard methods read only their arguments: their
bodies reference no module-level binding and no instance field (the only
mutable instance state of `GitHubAPI` is `this.cache`, which only
`makeRequest` touches).  To state frame conditions, each method is wrapped
as a state-passing function over the cache, respectively over the
participants map it is given. -/

/-- `processPRData` as a state-passing function over the instance cache:
the body never reads or writes `this.cache`. -/
def processPRDataS (cache : List (String × CacheEntry)) (prs : List PR) (s e : Nat) :
    Stats × List (String × CacheEntry) :=
  (processPRData prs s e, cache)

/-- `generateLeaderboard` as a state-passing function over the participants
map: the body iterates the values (`Array.from`) and never calls a mutator
on the map; the sort operates on the fresh array, not on the map. -/
def generateLeaderboardS (participants : List (String × Participant)) (limit : Nat) :
    List LBEntry × List (String × Participant) :=
  (generateLeaderboard participants limit, participants)

/-- `generateReviewLeaderboard` as a state-passing function over the
participants map. -/
def generateReviewLeaderboardS (participants : List (String × Participant)) (limit : Nat) :
    List RLBEntry × List (String × Participant) :=
  (generateReviewLeaderboard participants limit, participants)


/-! ## Derived readers used in statements -/

/-- The total-PR counter recorded for `repo`, zero when the repository has
no entry yet. -/
def rsTotal (rs : List (String × RepoStat)) (repo : String) : Nat :=
  ((mapGet rs repo).getD { total := 0, merged := 0, issues := 0, closedIssues := 0 }).total

/-- The merged-PR counter recorded for `repo`, zero when absent. -/
def rsMerged (rs : List (String × RepoStat)) (repo : String) : Nat :=
  ((mapGet rs repo).getD { total := 0, merged := 0, issues := 0, closedIssues := 0 }).merged

/-- Invariant of the `leaderboard` object of `processPRData`: every stored
rollup belongs to a login that passes both automation checks, and every
record stored in a rollup passed both checks itself. -/
def lbWellFormed (lb : List (String × Participant)) : Prop :=
  ∀ kv ∈ lb,
    isBotLogin kv.2.username = false ∧
    sIncludes (strLower kv.2.username) "copilot" = false ∧
    ∀ pr ∈ kv.2.prs, isBotLogin pr.login = false ∧ isCopilotPR pr.login pr.title = false

/-! ## Concrete instances used by witnesses and counterexamples

The sample window is the two UTC days 0 and 1 (seconds 0 to 172799) unless
a theorem passes other bounds explicitly. -/

/-- An ordinary merged-less record by alice on day 0. -/
def wPr1 : PR :=
  { login := "alice", avatar_url := "a1", html_url := "u1", title := "fix parser speed",
    created_at := 100, merged_at := none, repository := "o/r" }

/-- A second record by alice on day 0. -/
def wPr2 : PR :=
  { login := "alice", avatar_url := "a1", html_url := "u2", title := "add tests",
    created_at := 200, merged_at := none, repository := "o/r" }

/-- A record by alice whose title names Copilot. -/
def cPr1 : PR :=
  { login := "alice", avatar_url := "a1", html_url := "u3", title := "Copilot assisted cleanup",
    created_at := 100, merged_at := none, repository := "o/r" }

/-- A merged record by a bot account. -/
def wBotPr : PR :=
  { login := "mr-bot", avatar_url := "ab", html_url := "ub", title := "bump deps",
    created_at := 300, merged_at := some 400, repository := "o/r" }

/-- A record created before day 1 but merged inside the window starting at
day 1 (used against the early-termination claim). -/
def wK2 : PR :=
  { login := "early", avatar_url := "ae", html_url := "ue", title := "old but merged late",
    created_at := 50, merged_at := some 90000, repository := "x/y" }

/-- A record created inside the window days 10 to 20 (page 1 of the witness
listing). -/
def wIn : PR :=
  { login := "carol", avatar_url := "ac", html_url := "uc", title := "feature",
    created_at := 15 * 86400, merged_at := none, repository := "x/y" }

/-- A second in-window record (page 2 of the witness listing). -/
def wIn2 : PR :=
  { login := "dave", avatar_url := "ad", html_url := "ud", title := "docs",
    created_at := 12 * 86400, merged_at := none, repository := "x/y" }

/-- The first record created before the window start (day 10), not merged:
the early-exit trigger. -/
def wKold : PR :=
  { login := "early", avatar_url := "ae", html_url := "ue", title := "ancient",
    created_at := 100, merged_at := none, repository := "x/y" }

/-- A record after the early-exit trigger that would qualify by merge date
but is never examined. -/
def wAfter : PR :=
  { login := "erin", avatar_url := "af", html_url := "uf", title := "slow burn",
    created_at := 50, merged_at := some (15 * 86400), repository := "x/y" }

/-- The page listing for the early-termination witness: page 1 holds `wIn`,
page 2 holds `wIn2`, then the early-exit trigger, then the skipped
record. -/
def wPagesC2 : List (List PR) := [[wIn], [wIn2, wKold, wAfter]]

/-- The alice rollup used by the leaderboard witnesses. -/
def wAliceP : Participant :=
  { username := "alice", count := 3, prs := [], avatar := "a1", url := "u1",
    reviews := [], reviewCount := 0, mergedCount := 2 }

/-- Participants map used by the leaderboard witnesses. -/
def wParts : List (String × Participant) :=
  [("alice", wAliceP),
   ("bob",
    { username := "bob", count := 1, prs := [], avatar := "a2", url := "u2",
      reviews := [], reviewCount := 3, mergedCount := 1 }),
   ("zed",
    { username := "zed", count := 1, prs := [], avatar := "a3", url := "u3",
      reviews := [], reviewCount := 1, mergedCount := 0 })]

/-- An approved review by carol carrying a pull-request link. -/
def wRev : Review :=
  { login := "carol", avatar_url := "ac", html_url := "hc", state := "APPROVED",
    submitted_at := 100, pull_request_url := some "pru" }

/-- A dismissed review. -/
def wRevDism : Review :=
  { login := "dave", avatar_url := "ad", html_url := "hd", state := "DISMISSED",
    submitted_at := 100, pull_request_url := none }

/-- The fetch behavior for the fan-out witness: repository 2 always fails,
repositories 1 and 3 succeed. -/
def wFetchPR : String → Except String (List PR) := fun repoPath =>
  if repoPath == "o/repo2" then .error "GitHub API error: 500"
  else if repoPath == "o/repo1" then .ok [wPr1]
  else .ok [wPr2]

/-- A record created exactly at the window start (day 10). -/
def wAtStart : PR :=
  { login := "fay", avatar_url := "ag", html_url := "ug", title := "on the dot",
    created_at := 10 * 86400, merged_at := none, repository := "x/y" }

/-- A record created one second past the window end (day 20), never
merged. -/
def wPastEnd : PR :=
  { login := "gil", avatar_url := "ah", html_url := "uh", title := "just missed",
    created_at := 20 * 86400 + 1, merged_at := none, repository := "x/y" }

/-! # Theorems -/

/-! ## Date-loop equivalence -/

theorem initDaysFuel_eq_go (n e cur : Nat) (h : e + 1 - cur ≤ n) :
    initDaysFuel n e cur = initDaysGo e cur := by
  induction n generalizing cur with
  | zero =>
    rw [initDaysGo]
    simp [initDaysFuel, Nat.not_le.mpr (by omega : e < cur)]
  | succ n ih =>
    rw [initDaysGo, initDaysFuel]
    by_cases hle : cur ≤ e
    · simp only [if_pos hle]
      rw [ih (cur + 86400) (by omega)]
    · simp [hle]

/-- `initDays` is exactly the date-initialization loop of the source. -/
theorem initDays_eq_go (s e : Nat) : initDays s e = initDaysGo e s :=
  initDaysFuel_eq_go _ e s (Nat.le_refl _)

/-! ## Dictionary lemmas -/

theorem mapGet_mapSet_self {κ α : Type} [BEq κ] [LawfulBEq κ]
    (m : List (κ × α)) (k : κ) (v : α) : mapGet (mapSet m k v) k = some v := by
  induction m with
  | nil => simp [mapSet, mapGet]
  | cons kv rest ih =>
    obtain ⟨k0, w⟩ := kv
    by_cases h : k0 = k
    · subst h
      simp [mapSet, mapGet]
    · simp [mapSet, mapGet, h, ih]

theorem mapGet_mapSet_ne {κ α : Type} [BEq κ] [LawfulBEq κ]
    (m : List (κ × α)) (k : κ) (v : α) (k2 : κ) (h : k ≠ k2) :
    mapGet (mapSet m k v) k2 = mapGet m k2 := by
  induction m with
  | nil => simp [mapSet, mapGet, h]
  | cons kv rest ih =>
    obtain ⟨k0, w⟩ := kv
    by_cases h0 : k0 = k
    · subst h0
      simp [mapSet, mapGet, h]
    · simp [mapSet, mapGet, h0, ih]

theorem mem_mapSet {κ α : Type} [BEq κ] [LawfulBEq κ]
    (m : List (κ × α)) (k : κ) (v : α) (kv : κ × α) (h : kv ∈ mapSet m k v) :
    kv ∈ m ∨ kv = (k, v) := by
  induction m with
  | nil =>
    simp [mapSet] at h
    exact Or.inr h
  | cons kw rest ih =>
    obtain ⟨k0, w⟩ := kw
    by_cases h0 : k0 = k
    · subst h0
      simp [mapSet] at h
      rcases h with h | h
      · exact Or.inr (by simp [h])
      · exact Or.inl (List.mem_cons_of_mem _ h)
    · simp [mapSet, h0] at h
      rcases h with h | h
      · exact Or.inl (by simp [h])
      · rcases ih h with h2 | h2
        · exact Or.inl (List.mem_cons_of_mem _ h2)
        · exact Or.inr h2

theorem mapGet_eq_some_mem {κ α : Type} [BEq κ] [LawfulBEq κ]
    (m : List (κ × α)) (k : κ) (v : α) (h : mapGet m k = some v) :
    ∃ k0, (k0, v) ∈ m := by
  induction m with
  | nil => simp [mapGet] at h
  | cons kw rest ih =>
    obtain ⟨k0, w⟩ := kw
    by_cases h0 : k0 = k
    · subst h0
      simp [mapGet] at h
      exact ⟨k0, by simp [h]⟩
    · simp [mapGet, h0] at h
      obtain ⟨k1, hk1⟩ := ih h
      exact ⟨k1, List.mem_cons_of_mem _ hk1⟩


/-! ## Claim C4: leaderboard invariants -/

/-- C4.  For every participants map and every limit, both leaderboards are
sorted so that the ranking metric never increases between adjacent entries,
contain at most `limit` entries, and contain only entries whose metric
(merged count, respectively review count) is strictly positive. -/
theorem claim_C4 (participants : List (String × Participant)) (limit : Nat) :
    (List.Pairwise (fun a b : LBEntry => b.mergedCount ≤ a.mergedCount)
        (generateLeaderboard participants limit) ∧
      (generateLeaderboard participants limit).length ≤ limit ∧
      ∀ x ∈ generateLeaderboard participants limit, 0 < x.mergedCount) ∧
    (List.Pairwise (fun a b : RLBEntry => b.reviewCount ≤ a.reviewCount)
        (generateReviewLeaderboard participants limit) ∧
      (generateReviewLeaderboard participants limit).length ≤ limit ∧
      ∀ x ∈ generateReviewLeaderboard participants limit, 0 < x.reviewCount) := by
  constructor
  · unfold generateLeaderboard
    haveI : IsTotal Participant (fun a b => b.mergedCount ≤ a.mergedCount) :=
      ⟨fun a b => Nat.le_total _ _⟩
    haveI : IsTrans Participant (fun a b => b.mergedCount ≤ a.mergedCount) :=
      ⟨fun a b c h1 h2 => Nat.le_trans h2 h1⟩
    have hsorted := List.sorted_insertionSort
      (fun a b : Participant => b.mergedCount ≤ a.mergedCount)
      ((participants.map Prod.snd).filter (fun p => decide (0 < p.mergedCount)))
    refine ⟨?_, ?_, ?_⟩
    · exact List.pairwise_map.mpr (List.Pairwise.sublist (List.take_sublist limit _) hsorted)
    · rw [List.length_map, List.length_take]
      exact Nat.min_le_left _ _
    · intro x hx
      obtain ⟨y, hy, rfl⟩ := List.mem_map.mp hx
      have hy2 : y ∈ (participants.map Prod.snd).filter (fun p => decide (0 < p.mergedCount)) :=
        (List.perm_insertionSort _ _).mem_iff.mp (List.mem_of_mem_take hy)
      have := (List.mem_filter.mp hy2).2
      exact of_decide_eq_true this
  · unfold generateReviewLeaderboard
    haveI : IsTotal Participant (fun a b => b.reviewCount ≤ a.reviewCount) :=
      ⟨fun a b => Nat.le_total _ _⟩
    haveI : IsTrans Participant (fun a b => b.reviewCount ≤ a.reviewCount) :=
      ⟨fun a b c h1 h2 => Nat.le_trans h2 h1⟩
    have hsorted := List.sorted_insertionSort
      (fun a b : Participant => b.reviewCount ≤ a.reviewCount)
      ((participants.map Prod.snd).filter (fun p => decide (0 < p.reviewCount)))
    refine ⟨?_, ?_, ?_⟩
    · exact List.pairwise_map.mpr (List.Pairwise.sublist (List.take_sublist limit _) hsorted)
    · rw [List.length_map, List.length_take]
      exact Nat.min_le_left _ _
    · intro x hx
      obtain ⟨y, hy, rfl⟩ := List.mem_map.mp hx
      have hy2 : y ∈ (participants.map Prod.snd).filter (fun p => decide (0 < p.reviewCount)) :=
        (List.perm_insertionSort _ _).mem_iff.mp (List.mem_of_mem_take hy)
      have := (List.mem_filter.mp hy2).2
      exact of_decide_eq_true this

/-- Witness for C4 on a concrete map: the merged-PR board keeps alice (2)
before bob (1), drops zed (0 merged), and respects the limit; the
positivity conjunct is instantiated at the concrete head entry. -/
theorem claim_C4_witness :
    List.Pairwise (fun a b : LBEntry => b.mergedCount ≤ a.mergedCount)
        (generateLeaderboard wParts 2) ∧
      (generateLeaderboard wParts 2).length ≤ 2 ∧
      0 < (lbView wAliceP).mergedCount :=
  ⟨(claim_C4 wParts 2).1.1, (claim_C4 wParts 2).1.2.1,
    (claim_C4 wParts 2).1.2.2 _ (by decide)⟩

/-! ## Claim C7: fan-out tolerates partial failure -/

/-- The `Promise.allSettled` result fold shared by `getAllPullRequests` and
`getAllIssues`: appending the fulfilled values in order, skipping
failures, is joining the successful results. -/
theorem settleFold_eq {α : Type} (results : List (Except String (List α))) (acc : List α) :
    results.foldl settleAppend acc = acc ++ (results.filterMap Except.toOption).flatten := by
  induction results generalizing acc with
  | nil => simp
  | cons r rest ih =>
    cases r with
    | ok value => simp [settleAppend, ih, Except.toOption, List.append_assoc]
    | error err => simp [settleAppend, ih, Except.toOption]

/-- C7.  The fan-out combinators return exactly the concatenation of the
successful per-repository results, in repository order, unaffected by the
failing repositories; in particular with three repositories whose middle
fetch fails the result is the concatenation of the first and third
results. -/
theorem claim_C7 :
    (∀ (fetch : String → Except String (List PR)) (repositories : List String),
        getAllPullRequests fetch repositories =
          (repositories.filterMap (fun repoPath => (fetch repoPath).toOption)).flatten) ∧
    (∀ (fetch : String → Except String (List Issue)) (repositories : List String),
        getAllIssues fetch repositories =
          (repositories.filterMap (fun repoPath => (fetch repoPath).toOption)).flatten) ∧
    (∀ (fetch : String → Except String (List PR)) (r1 r2 r3 : String)
        (l1 l3 : List PR) (err : String),
        fetch r1 = .ok l1 → fetch r2 = .error err → fetch r3 = .ok l3 →
        getAllPullRequests fetch [r1, r2, r3] = l1 ++ l3 ∧
          (l1 ≠ [] → getAllPullRequests fetch [r1, r2, r3] ≠ [])) := by
  refine ⟨?_, ?_, ?_⟩
  · intro fetch repositories
    unfold getAllPullRequests
    rw [settleFold_eq]
    simp [List.filterMap_map, Function.comp_def]
  · intro fetch repositories
    unfold getAllIssues
    rw [settleFold_eq]
    simp [List.filterMap_map, Function.comp_def]
  · intro fetch r1 r2 r3 l1 l3 err h1 h2 h3
    have hmain : getAllPullRequests fetch [r1, r2, r3] = l1 ++ l3 := by
      unfold getAllPullRequests
      rw [settleFold_eq]
      simp [h1, h2, h3, Except.toOption]
    refine ⟨hmain, fun hne => ?_⟩
    rw [hmain]
    simp [hne]

/-- Witness for C7: with repositories 1 and 3 succeeding and repository 2
failing, the merged result is the two successful lists. -/
theorem claim_C7_witness :
    getAllPullRequests wFetchPR ["o/repo1", "o/repo2", "o/repo3"] = [wPr1] ++ [wPr2] ∧
      ([wPr1] ≠ [] → getAllPullRequests wFetchPR ["o/repo1", "o/repo2", "o/repo3"] ≠ []) :=
  claim_C7.2.2 wFetchPR "o/repo1" "o/repo2" "o/repo3" [wPr1] [wPr2]
    "GitHub API error: 500" rfl rfl rfl

/-! ## Claim C8: aggregation is deterministic, with no hidden state -/

/-- C8.  Running `processPRData` twice on the same record set and window
yields identical results component by component, and the instance cache
(the only mutable state of the class) is untouched: the aggregation is a
pure function of its arguments. -/
theorem claim_C8 (cache : List (String × CacheEntry)) (prs : List PR) (s e : Nat) :
    (processPRDataS (processPRDataS cache prs s e).2 prs s e).1 =
        (processPRDataS cache prs s e).1 ∧
      (processPRDataS cache prs s e).2 = cache ∧
      (processPRDataS (processPRDataS cache prs s e).2 prs s e).1.totalPRs =
        (processPRDataS cache prs s e).1.totalPRs ∧
      (processPRDataS (processPRDataS cache prs s e).2 prs s e).1.mergedPRs =
        (processPRDataS cache prs s e).1.mergedPRs ∧
      (processPRDataS (processPRDataS cache prs s e).2 prs s e).1.dailyActivity =
        (processPRDataS cache prs s e).1.dailyActivity ∧
      (processPRDataS (processPRDataS cache prs s e).2 prs s e).1.repoStats =
        (processPRDataS cache prs s e).1.repoStats ∧
      (processPRDataS (processPRDataS cache prs s e).2 prs s e).1.participants =
        (processPRDataS cache prs s e).1.participants :=
  ⟨rfl, rfl, rfl, rfl, rfl, rfl, rfl⟩

/-! ## Claim C9: leaderboard generation does not mutate the participants map -/

/-- C9.  Neither leaderboard builder changes the participants map it is
given (same keys, same rollups afterwards), so the two leaderboards can be
built in either order with identical results. -/
theorem claim_C9 (participants : List (String × Participant)) (l1 l2 : Nat) :
    (generateLeaderboardS participants l1).2 = participants ∧
      (generateReviewLeaderboardS participants l2).2 = participants ∧
      (generateReviewLeaderboardS (generateLeaderboardS participants l1).2 l2).2 =
        participants ∧
      (generateLeaderboardS participants l1).1 =
        (generateLeaderboardS (generateReviewLeaderboardS participants l2).2 l1).1 ∧
      (generateReviewLeaderboardS participants l2).1 =
        (generateReviewLeaderboardS (generateLeaderboardS participants l1).2 l2).1 :=
  ⟨rfl, rfl, rfl, rfl, rfl⟩

/-! ## Claim C10: failed requests leave the cache unchanged -/

/-- C10.  When `makeRequest` fails (non-success HTTP status or network
error), the URL-keyed cache is completely unchanged and the error is
rethrown; the cache is written only on a successful response. -/
theorem claim_C10 (cache : List (String × CacheEntry)) (url : String) (useCache : Bool)
    (now : Nat) (outcome : FetchOutcome) :
    (∀ err, (makeRequest cache url useCache now outcome).1 = .error err →
        (makeRequest cache url useCache now outcome).2 = cache) ∧
      ((useCache && cacheFresh cache url now) = false →
        (∀ status, outcome = .httpError status →
          makeRequest cache url useCache now outcome =
            (.error ("GitHub API error: " ++ toString status), cache)) ∧
        (∀ message, outcome = .networkError message →
          makeRequest cache url useCache now outcome = (.error message, cache))) ∧
      ((makeRequest cache url useCache now outcome).2 ≠ cache →
        ∃ d, outcome = .success d ∧
          makeRequest cache url useCache now outcome =
            (.ok d, mapSet cache url { data := d, timestamp := now })) := by
  by_cases hc : (useCache && cacheFresh cache url now) = true
  · obtain ⟨entry, hget⟩ : ∃ entry, mapGet cache url = some entry := by
      have h2 := ((Bool.and_eq_true _ _).mp hc).2
      unfold cacheFresh at h2
      cases hg : mapGet cache url with
      | none => rw [hg] at h2; simp at h2
      | some entry => exact ⟨entry, rfl⟩
    have hmr : makeRequest cache url useCache now outcome = (.ok entry.data, cache) := by
      unfold makeRequest
      rw [if_pos hc, hget]
    refine ⟨?_, ?_, ?_⟩
    · intro err h
      rw [hmr]
    · intro hfalse
      rw [hfalse] at hc
      exact absurd hc (by simp)
    · intro hne
      rw [hmr] at hne
      exact absurd rfl hne
  · have hmr : makeRequest cache url useCache now outcome = doFetch cache url now outcome := by
      unfold makeRequest
      rw [if_neg hc]
    cases outcome with
    | success d =>
      refine ⟨?_, ?_, ?_⟩
      · intro err h
        rw [hmr] at h
        simp [doFetch] at h
      · intro _
        constructor
        · intro status hs
          exact absurd hs (by simp)
        · intro message hm
          exact absurd hm (by simp)
      · intro _
        exact ⟨d, rfl, by rw [hmr]; rfl⟩
    | httpError status =>
      refine ⟨?_, ?_, ?_⟩
      · intro err h
        rw [hmr]
        rfl
      · intro _
        constructor
        · intro status2 hs
          cases hs
          exact hmr
        · intro message hm
          exact absurd hm (by simp)
      · intro hne
        rw [hmr] at hne
        exact absurd rfl hne
    | networkError message =>
      refine ⟨?_, ?_, ?_⟩
      · intro err h
        rw [hmr]
        rfl
      · intro _
        constructor
        · intro status hs
          exact absurd hs (by simp)
        · intro message2 hm
          cases hm
          exact hmr
      · intro hne
        rw [hmr] at hne
        exact absurd rfl hne

/-- Witness for C10: a 403 with an empty cache leaves the cache empty and
surfaces the formatted error; a transport failure with a stale cached entry
leaves that entry exactly as it was. -/
theorem claim_C10_witness :
    makeRequest [] "u" true 0 (.httpError 403) =
        (.error ("GitHub API error: " ++ toString 403), []) ∧
      (makeRequest [("u", { data := "c", timestamp := 0 })] "u" true 600000
          (.networkError "boom")).2 =
        [("u", { data := "c", timestamp := 0 })] :=
  ⟨((claim_C10 [] "u" true 0 (.httpError 403)).2.1 (by decide)).1 403 rfl,
    (claim_C10 [("u", { data := "c", timestamp := 0 })] "u" true 600000
        (.networkError "boom")).1 "boom" rfl⟩


/-! ## processPRData unfolding lemmas -/

theorem prStep_mergedPRs (s e : Nat) (acc : PRAcc) (pr : PR) :
    (prStep s e acc pr).mergedPRs =
      if pr.merged_at.isSome then acc.mergedPRs + 1 else acc.mergedPRs := rfl

theorem prStep_leaderboard (s e : Nat) (acc : PRAcc) (pr : PR) :
    (prStep s e acc pr).leaderboard =
      if !isBotLogin pr.login && !isCopilotPR pr.login pr.title then
        lbUpsert acc.leaderboard pr pr.merged_at.isSome
      else acc.leaderboard := rfl

theorem prStep_repoStats (s e : Nat) (acc : PRAcc) (pr : PR) :
    (prStep s e acc pr).repoStats =
      repoUpsert acc.repoStats pr.repository pr.merged_at.isSome := rfl

theorem processPRData_participants (prs : List PR) (s e : Nat) :
    (processPRData prs s e).participants =
      ((prs.foldl (prStep s e)
          { mergedPRs := 0, leaderboard := [], dailyActivity := [], repoStats := [] }).leaderboard).map
        (fun kv => (kv.2.username, kv.2)) := rfl

theorem processPRData_mergedPRs (prs : List PR) (s e : Nat) :
    (processPRData prs s e).mergedPRs =
      (prs.foldl (prStep s e)
        { mergedPRs := 0, leaderboard := [], dailyActivity := [], repoStats := [] }).mergedPRs := rfl

theorem processPRData_repoStats (prs : List PR) (s e : Nat) :
    (processPRData prs s e).repoStats =
      (prs.foldl (prStep s e)
        { mergedPRs := 0, leaderboard := [], dailyActivity := [], repoStats := [] }).repoStats := rfl

/-! ## Counter fold lemmas -/

theorem repoUpsert_rsTotal (rs : List (String × RepoStat)) (repo2 : String) (m : Bool)
    (repo : String) :
    rsTotal (repoUpsert rs repo2 m) repo =
      if repo2 == repo then rsTotal rs repo + 1 else rsTotal rs repo := by
  by_cases h : repo2 = repo
  · subst h
    simp [rsTotal, repoUpsert, mapGet_mapSet_self]
  · simp [rsTotal, repoUpsert, mapGet_mapSet_ne _ _ _ _ h, h]

theorem repoUpsert_rsMerged (rs : List (String × RepoStat)) (repo2 : String) (m : Bool)
    (repo : String) :
    rsMerged (repoUpsert rs repo2 m) repo =
      if repo2 == repo && m then rsMerged rs repo + 1 else rsMerged rs repo := by
  by_cases h : repo2 = repo
  · subst h
    cases m <;> simp [rsMerged, repoUpsert, mapGet_mapSet_self]
  · simp [rsMerged, repoUpsert, mapGet_mapSet_ne _ _ _ _ h, h]

theorem foldl_prStep_mergedPRs (s e : Nat) (prs : List PR) :
    ∀ acc : PRAcc, (prs.foldl (prStep s e) acc).mergedPRs =
      acc.mergedPRs + (prs.filter (fun pr => pr.merged_at.isSome)).length := by
  induction prs with
  | nil => intro acc; simp
  | cons pr rest ih =>
    intro acc
    rw [List.foldl_cons, ih, prStep_mergedPRs, List.filter_cons]
    cases hm : pr.merged_at.isSome <;> simp [Nat.add_assoc, Nat.add_comm]

theorem foldl_prStep_rsTotal (s e : Nat) (repo : String) (prs : List PR) :
    ∀ acc : PRAcc, rsTotal ((prs.foldl (prStep s e) acc).repoStats) repo =
      rsTotal acc.repoStats repo + (prs.filter (fun pr => pr.repository == repo)).length := by
  induction prs with
  | nil => intro acc; simp
  | cons pr rest ih =>
    intro acc
    rw [List.foldl_cons, ih, prStep_repoStats, repoUpsert_rsTotal, List.filter_cons]
    by_cases h : pr.repository = repo <;> simp [h, Nat.add_assoc, Nat.add_comm]

theorem foldl_prStep_rsMerged (s e : Nat) (repo : String) (prs : List PR) :
    ∀ acc : PRAcc, rsMerged ((prs.foldl (prStep s e) acc).repoStats) repo =
      rsMerged acc.repoStats repo +
        (prs.filter (fun pr => pr.repository == repo && pr.merged_at.isSome)).length := by
  induction prs with
  | nil => intro acc; simp
  | cons pr rest ih =>
    intro acc
    rw [List.foldl_cons, ih, prStep_repoStats, repoUpsert_rsMerged, List.filter_cons]
    by_cases h : pr.repository = repo
    · cases hm : pr.merged_at.isSome <;> simp [h, hm, Nat.add_assoc, Nat.add_comm]
    · simp [h]

/-! ## Leaderboard well-formedness -/

theorem lbUpsert_wf (lb : List (String × Participant)) (pr : PR) (m : Bool)
    (hwf : lbWellFormed lb) (hbot : isBotLogin pr.login = false)
    (hcop : isCopilotPR pr.login pr.title = false) :
    lbWellFormed (lbUpsert lb pr m) := by
  have hcopLogin : sIncludes (strLower pr.login) "copilot" = false := by
    unfold isCopilotPR at hcop
    rcases Bool.or_eq_false_iff.mp hcop with ⟨h1, _⟩
    exact Bool.or_eq_false_iff.mp h1 |>.1
  intro kv hkv
  unfold lbUpsert at hkv
  simp only [] at hkv
  cases hget : mapGet lb ("contributor_" ++ pr.login) with
  | some p =>
    rw [hget] at hkv
    rcases mem_mapSet _ _ _ _ hkv with hmem | heq
    · exact hwf kv hmem
    · obtain ⟨k0, hk0⟩ := mapGet_eq_some_mem _ _ _ hget
      obtain ⟨hpb, hpc, hpprs⟩ := hwf (k0, p) hk0
      subst heq
      refine ⟨hpb, hpc, ?_⟩
      intro pr2 hpr2
      simp only [List.mem_append, List.mem_singleton] at hpr2
      rcases hpr2 with h | h
      · exact hpprs pr2 h
      · subst h
        exact ⟨hbot, hcop⟩
  | none =>
    rw [hget] at hkv
    rcases mem_mapSet _ _ _ _ hkv with hmem | heq
    · exact hwf kv hmem
    · subst heq
      refine ⟨hbot, hcopLogin, ?_⟩
      intro pr2 hpr2
      simp only [List.mem_singleton] at hpr2
      subst hpr2
      exact ⟨hbot, hcop⟩

theorem foldl_prStep_wf (s e : Nat) (prs : List PR) :
    ∀ acc : PRAcc, lbWellFormed acc.leaderboard →
      lbWellFormed ((prs.foldl (prStep s e) acc).leaderboard) := by
  induction prs with
  | nil => intro acc h; simpa using h
  | cons pr rest ih =>
    intro acc hacc
    rw [List.foldl_cons]
    refine ih _ ?_
    rw [prStep_leaderboard]
    by_cases hcond : (!isBotLogin pr.login && !isCopilotPR pr.login pr.title) = true
    · rw [if_pos hcond]
      obtain ⟨h1, h2⟩ := Bool.and_eq_true _ _ |>.mp hcond
      exact lbUpsert_wf _ _ _ hacc (Bool.not_eq_true' .. ▸ h1) (Bool.not_eq_true' .. ▸ h2)
    · rw [if_neg hcond]
      exact hacc

theorem mapGet_usernameMap (lb : List (String × Participant)) (u : String) (p : Participant)
    (h : mapGet (lb.map (fun kv => (kv.2.username, kv.2))) u = some p) :
    p.username = u ∧ ∃ k0, (k0, p) ∈ lb := by
  induction lb with
  | nil => simp [mapGet] at h
  | cons kv rest ih =>
    rw [List.map_cons] at h
    unfold mapGet at h
    by_cases hb : kv.2.username = u
    · rw [if_pos (by exact beq_iff_eq.mpr hb)] at h
      obtain rfl : kv.2 = p := Option.some.inj h
      exact ⟨hb, kv.1, by simp⟩
    · rw [if_neg (by simp [hb])] at h
      obtain ⟨h1, k0, hk0⟩ := ih h
      exact ⟨h1, k0, List.mem_cons_of_mem _ hk0⟩

/-! ## Claim C1: daily-activity series (code defect) -/

/-- C1 fails on the code: the date-range initialization sits inside the
per-record loop, so an empty record set produces an empty daily series
(no pre-populated dates at all), and each record resets every bucket to
zero before adding its own activity, so with the two day-0 records `wPr1`
and `wPr2` the day-0 total ends at 1 instead of 2. -/
theorem claim_C1_daily_reset :
    (processPRData [] 0 172799).dailyActivity = [] ∧
      (processPRData [wPr1, wPr2] 0 172799).dailyActivity =
        [(0, { total := 1, merged := 0 }), (1, { total := 0, merged := 0 })] := by
  decide

/-! ## Claim C3: automation exclusion -/

/-- Counterexample to C3 as stated: `cPr1` is flagged by its title alone
(`Copilot assisted cleanup`), yet its author login alice still appears in
the participants map, carried there by the unflagged record `wPr2`.
The third conjunct shows the flagged record is not reliably counted in the
daily buckets either: both records were created on day 0 inside the window,
but the day-0 total ends at 1 (see C1). -/
theorem claim_C3_counterexample :
    isCopilotPR cPr1.login cPr1.title = true ∧
      (mapGet (processPRData [cPr1, wPr2] 0 172799).participants "alice").isSome = true ∧
      (processPRData [cPr1, wPr2] 0 172799).dailyActivity =
        [(0, { total := 1, merged := 0 }), (1, { total := 0, merged := 0 })] := by
  decide

/-- C3 as amended: a login matching the bot or copilot pattern never
appears in the participants map, regardless of merge status; every record
stored in any rollup passed both automation checks (so a record flagged
only by its title is itself never folded into a rollup, though its author
may appear through other records); and flagged records are still counted
in `totalPRs`, `mergedPRs` and the per-repository totals, which count every
record alike.  (Daily buckets are left out: per C1 they only ever reflect
the final record processed.) -/
theorem claim_C3 (prs : List PR) (s e : Nat) :
    (∀ u, (sIncludes (strLower u) "bot" || sIncludes (strLower u) "copilot") = true →
        mapGet (processPRData prs s e).participants u = none) ∧
      (∀ u p, mapGet (processPRData prs s e).participants u = some p →
        ∀ pr ∈ p.prs, isBotLogin pr.login = false ∧ isCopilotPR pr.login pr.title = false) ∧
      (processPRData prs s e).totalPRs = prs.length ∧
      (processPRData prs s e).mergedPRs = (prs.filter (fun pr => pr.merged_at.isSome)).length ∧
      (∀ repo, rsTotal (processPRData prs s e).repoStats repo =
          (prs.filter (fun pr => pr.repository == repo)).length ∧
        rsMerged (processPRData prs s e).repoStats repo =
          (prs.filter (fun pr => pr.repository == repo && pr.merged_at.isSome)).length) := by
  have hwf : lbWellFormed ((prs.foldl (prStep s e)
      { mergedPRs := 0, leaderboard := [], dailyActivity := [], repoStats := [] }).leaderboard) := by
    refine foldl_prStep_wf s e prs _ ?_
    intro kv hkv
    simp at hkv
  refine ⟨?_, ?_, rfl, ?_, ?_⟩
  · intro u hu
    rw [processPRData_participants]
    cases hm : mapGet _ u with
    | none => rfl
    | some p =>
      exfalso
      obtain ⟨huser, k0, hk0⟩ := mapGet_usernameMap _ _ _ hm
      obtain ⟨hpb, hpc, _⟩ := hwf (k0, p) hk0
      rw [huser] at hpb hpc
      rcases Bool.or_eq_true _ _ |>.mp hu with h | h
      · have : isBotLogin u = true := by
          unfold isBotLogin
          rw [h]
          simp
        rw [this] at hpb
        cases hpb
      · rw [h] at hpc
        cases hpc
  · intro u p hp
    rw [processPRData_participants] at hp
    obtain ⟨_, k0, hk0⟩ := mapGet_usernameMap _ _ _ hp
    exact (hwf (k0, p) hk0).2.2
  · rw [processPRData_mergedPRs, foldl_prStep_mergedPRs]
    simp
  · intro repo
    constructor
    · rw [processPRData_repoStats, foldl_prStep_rsTotal]
      simp [rsTotal, mapGet]
    · rw [processPRData_repoStats, foldl_prStep_rsMerged]
      simp [rsMerged, mapGet]

/-- Witness for C3 at a concrete run (one human record, one merged bot
record): the bot login is absent from the participants map while the bot
record still counts in `mergedPRs` and in the per-repository total. -/
theorem claim_C3_witness :
    mapGet (processPRData [wPr1, wBotPr] 0 172799).participants "mr-bot" = none ∧
      (processPRData [wPr1, wBotPr] 0 172799).mergedPRs = 1 ∧
      rsTotal (processPRData [wPr1, wBotPr] 0 172799).repoStats "o/r" = 2 :=
  ⟨(claim_C3 [wPr1, wBotPr] 0 172799).1 "mr-bot" (by decide),
    ((claim_C3 [wPr1, wBotPr] 0 172799).2.2.2.1).trans (by decide),
    (((claim_C3 [wPr1, wBotPr] 0 172799).2.2.2.2 "o/r").1).trans (by decide)⟩


/-! ## Collector lemmas (fetchPullRequests) -/

theorem relevantPR_attachRepo (s e : Nat) (i : String) (pr : PR) :
    relevantPR s e (attachRepo i pr) = relevantPR s e pr := rfl

/-- A page with no record created before the window start is scanned in
full: the output is exactly the window-relevant records with the
repository attached, and the early-exit flag stays down. -/
theorem scanPage_no_old (s e : Nat) (repoId : String) (page : List PR)
    (h : ∀ r ∈ page, s ≤ r.created_at) :
    scanPage s e repoId page = ((page.filter (relevantPR s e)).map (attachRepo repoId), false) := by
  induction page with
  | nil => rfl
  | cons pr rest ih =>
    have hpr : s ≤ pr.created_at := h pr (List.mem_cons_self pr rest)
    have hnot : ¬ pr.created_at < s := Nat.not_lt.mpr hpr
    have ih2 := ih (fun r hr => h r (List.mem_cons_of_mem _ hr))
    simp only [scanPage, ih2, if_neg hnot, List.filter_cons]
    cases hrel : relevantPR s e pr <;> simp [hrel]

/-- A page whose first record created before the window start sits at
position `j` is scanned only up to and including that record: the output
is exactly the window-relevant records among the first `j + 1`, and the
early-exit flag is raised. -/
theorem scanPage_with_old (s e : Nat) (repoId : String) :
    ∀ (page : List PR) (j : Nat) (K : PR), page[j]? = some K →
      (∀ r ∈ page.take j, s ≤ r.created_at) → K.created_at < s →
      scanPage s e repoId page =
        (((page.take (j + 1)).filter (relevantPR s e)).map (attachRepo repoId), true) := by
  intro page
  induction page with
  | nil => intro j K hK _ _; simp at hK
  | cons pr rest ih =>
    intro j K hK hpre hold
    cases j with
    | zero =>
      obtain rfl : pr = K := by simpa using hK
      simp only [scanPage, if_pos hold, List.take_succ_cons, List.take_zero, List.filter_cons]
      cases hrel : relevantPR s e pr <;> simp [hrel]
    | succ j =>
      have hK2 : rest[j]? = some K := by simpa using hK
      have hpr : s ≤ pr.created_at := hpre pr (by simp)
      have hnot : ¬ pr.created_at < s := Nat.not_lt.mpr hpr
      have hpre2 : ∀ r ∈ rest.take j, s ≤ r.created_at := fun r hr =>
        hpre r (by simp [hr])
      simp only [scanPage, if_neg hnot, ih j K hK2 hpre2 hold, List.take_succ_cons,
        List.filter_cons]
      cases hrel : relevantPR s e pr <;> simp [hrel]

/-- Soundness of the page scan: everything it outputs is window-relevant. -/
theorem scanPage_mem_relevant (s e : Nat) (repoId : String) :
    ∀ (page : List PR) (r : PR), r ∈ (scanPage s e repoId page).1 → relevantPR s e r = true := by
  intro page
  induction page with
  | nil => intro r hr; simp [scanPage] at hr
  | cons pr rest ih =>
    intro r hr
    simp only [scanPage] at hr
    by_cases hold : pr.created_at < s
    · rw [if_pos hold] at hr
      cases hrel : relevantPR s e pr
      · simp [hrel] at hr
      · simp [hrel] at hr
        subst hr
        rw [relevantPR_attachRepo]
        exact hrel
    · rw [if_neg hold] at hr
      simp only [List.mem_append] at hr
      rcases hr with h | h
      · cases hrel : relevantPR s e pr
        · simp [hrel] at h
        · simp [hrel] at h
          subst h
          rw [relevantPR_attachRepo]
          exact hrel
      · exact ih r h

/-- Soundness of the page loop: everything the collector outputs is
window-relevant. -/
theorem fetchPagesGo_mem_relevant (s e : Nat) (repoId : String) (pages : List (List PR)) :
    ∀ (fuel pageIdx : Nat) (r : PR), r ∈ (fetchPagesGo s e repoId pages pageIdx fuel).1 →
      relevantPR s e r = true := by
  intro fuel
  induction fuel with
  | zero => intro pageIdx r hr; simp [fetchPagesGo] at hr
  | succ fuel ih =>
    intro pageIdx r hr
    by_cases hemp : (pages.getD pageIdx []).isEmpty = true
    · have hnil : pages.getD pageIdx [] = [] := by simpa using hemp
      have heq : fetchPagesGo s e repoId pages pageIdx (fuel + 1) = ([], 1) := by
        simp only [fetchPagesGo, hnil]
        simp
      rw [heq] at hr
      simp at hr
    · have hne : pages.getD pageIdx [] ≠ [] := by simpa using hemp
      have hemp2 : (pages.getD pageIdx []).isEmpty = false := by
        cases h2 : pages.getD pageIdx [] with
        | nil => exact absurd h2 hne
        | cons a t => rfl
      cases hsp : (scanPage s e repoId (pages.getD pageIdx [])).2
      · have heq : fetchPagesGo s e repoId pages pageIdx (fuel + 1) =
            ((scanPage s e repoId (pages.getD pageIdx [])).1 ++
                (fetchPagesGo s e repoId pages (pageIdx + 1) fuel).1,
              (fetchPagesGo s e repoId pages (pageIdx + 1) fuel).2 + 1) := by
          simp only [fetchPagesGo, hemp2, Bool.false_eq_true, if_false, hsp]
        rw [heq] at hr
        rcases List.mem_append.mp hr with h | h
        · exact scanPage_mem_relevant s e repoId _ r h
        · exact ih (pageIdx + 1) r h
      · have heq : fetchPagesGo s e repoId pages pageIdx (fuel + 1) =
            ((scanPage s e repoId (pages.getD pageIdx [])).1, 1) := by
          simp only [fetchPagesGo, hemp2, Bool.false_eq_true, if_false, hsp, if_true]
        rw [heq] at hr
        exact scanPage_mem_relevant s e repoId _ r hr

theorem range_map_getD_eq_take {β : Type} (l : List β) (d : β) :
    ∀ p : Nat, p ≤ l.length → (List.range p).map (fun q => l.getD q d) = l.take p := by
  intro p
  induction p with
  | zero => intro h; simp
  | succ p ih =>
    intro h
    have hp : p < l.length := by omega
    rw [List.range_succ, List.map_append, ih (by omega), List.take_succ]
    simp [List.getD_eq_getElem l d hp, List.getElem?_eq_getElem hp]

/-- Main characterization of the page loop on a listing whose first
too-old record sits at index `j` of page `pageIdx + p`, all earlier pages
being nonempty and free of too-old records: exactly the pages up to and
including that one are requested (`p + 1` requests from position
`pageIdx`), and the output is the window-relevant records among everything
up to and including the too-old record. -/
theorem fetchPagesGo_spec (s e : Nat) (repoId : String) (pages : List (List PR)) :
    ∀ (p pageIdx fuel j : Nat) (K : PR),
      p < fuel →
      (∀ q, q < p → pages.getD (pageIdx + q) [] ≠ [] ∧
        ∀ r ∈ pages.getD (pageIdx + q) [], s ≤ r.created_at) →
      (pages.getD (pageIdx + p) [])[j]? = some K →
      (∀ r ∈ (pages.getD (pageIdx + p) []).take j, s ≤ r.created_at) →
      K.created_at < s →
      fetchPagesGo s e repoId pages pageIdx fuel =
        (((((List.range p).map (fun q => pages.getD (pageIdx + q) [])).flatten ++
              (pages.getD (pageIdx + p) []).take (j + 1)).filter (relevantPR s e)).map
            (attachRepo repoId),
          p + 1) := by
  intro p
  induction p with
  | zero =>
    intro pageIdx fuel j K hfuel hfull hK hpre hold
    cases fuel with
    | zero => omega
    | succ fuel =>
      rw [Nat.add_zero] at hK hpre
      have hne : pages.getD pageIdx [] ≠ [] := by
        intro hnil
        rw [hnil] at hK
        simp at hK
      have hemp : (pages.getD pageIdx []).isEmpty = false := by
        cases h2 : pages.getD pageIdx [] with
        | nil => exact absurd h2 hne
        | cons a t => rfl
      simp only [fetchPagesGo, hemp, Bool.false_eq_true, if_false,
        scanPage_with_old s e repoId _ j K hK hpre hold, if_true]
      simp
  | succ p ih =>
    intro pageIdx fuel j K hfuel hfull hK hpre hold
    cases fuel with
    | zero => omega
    | succ fuel =>
      obtain ⟨hne0, hnold0⟩ := hfull 0 (Nat.succ_pos p)
      rw [Nat.add_zero] at hne0 hnold0
      have hemp : (pages.getD pageIdx []).isEmpty = false := by
        cases h2 : pages.getD pageIdx [] with
        | nil => exact absurd h2 hne0
        | cons a t => rfl
      have hfull2 : ∀ q, q < p → pages.getD (pageIdx + 1 + q) [] ≠ [] ∧
          ∀ r ∈ pages.getD (pageIdx + 1 + q) [], s ≤ r.created_at := by
        intro q hq
        have hcast : pageIdx + (q + 1) = pageIdx + 1 + q := by omega
        have := hfull (q + 1) (by omega)
        rwa [hcast] at this
      have hcast2 : pageIdx + (p + 1) = pageIdx + 1 + p := by omega
      have ihh := ih (pageIdx + 1) fuel j K (by omega) hfull2
        (by rwa [hcast2] at hK) (by rwa [hcast2] at hpre) hold
      simp only [fetchPagesGo, hemp, Bool.false_eq_true, if_false,
        scanPage_no_old s e repoId _ hnold0, ihh]
      have hfun : ((List.range (p + 1)).map (fun q => pages.getD (pageIdx + q) [])).flatten =
          pages.getD pageIdx [] ++
            ((List.range p).map (fun q => pages.getD (pageIdx + 1 + q) [])).flatten := by
        rw [List.range_succ_eq_map, List.map_cons, List.map_map]
        simp only [Nat.add_zero, List.flatten_cons]
        refine congrArg (pages.getD pageIdx [] ++ ·) ?_
        refine congrArg List.flatten ?_
        refine List.map_congr_left ?_
        intro q _
        show pages.getD (pageIdx + (q + 1)) [] = pages.getD (pageIdx + 1 + q) []
        congr 1
        omega
      rw [hfun, List.append_assoc, List.filter_append, List.map_append, hcast2,
        List.filter_append, List.map_append, List.filter_append, List.map_append]

/-! ## Claim C2: early termination -/

/-- Counterexample to C2 as stated: the first record with a creation date
before the window start is still included in the output when its merge
date falls inside the window, because the relevance push happens before
the early-exit check. -/
theorem claim_C2_counterexample :
    wK2.created_at < 86400 ∧
      attachRepo "x/y" wK2 ∈ (fetchPullRequests [[wK2]] "x" "y" 86400 172800).1 := by
  decide

/-- C2 as amended: with the records sorted by descending creation date and
record `K` (position `j` of page `p`, all earlier pages nonempty and free
of too-old records) the first one created before the window start, the
collector issues exactly `p + 1` page requests (none beyond the page
containing `K`), examines nothing after `K`, and returns precisely the
window-relevant records among those examined, repository attached — so `K`
itself is returned exactly when its merge date falls inside the window. -/
theorem claim_C2 (pages : List (List PR)) (owner repo : String) (s e : Nat) (p j : Nat) (K : PR)
    (_hsorted : List.Pairwise (fun a b : PR => b.created_at ≤ a.created_at) pages.flatten)
    (hp : p < 20)
    (hfull : ∀ q, q < p → pages.getD q [] ≠ [] ∧ ∀ r ∈ pages.getD q [], s ≤ r.created_at)
    (hK : (pages.getD p [])[j]? = some K)
    (hpre : ∀ r ∈ (pages.getD p []).take j, s ≤ r.created_at)
    (hold : K.created_at < s) :
    fetchPullRequests pages owner repo s e =
      ((((pages.take p).flatten ++ (pages.getD p []).take (j + 1)).filter (relevantPR s e)).map
          (attachRepo (owner ++ "/" ++ repo)),
        p + 1) := by
  have hplen : p < pages.length := by
    by_contra hge
    rw [List.getD_eq_default _ _ (by omega)] at hK
    simp at hK
  have hspec := fetchPagesGo_spec s e (owner ++ "/" ++ repo) pages p 0 20 j K hp
    (by intro q hq; simpa using hfull q hq) (by simpa using hK) (by simpa using hpre) hold
  simp only [Nat.zero_add] at hspec
  unfold fetchPullRequests
  rw [hspec, range_map_getD_eq_take pages [] p (Nat.le_of_lt hplen)]

/-- Witness for C2 on `wPagesC2` (window days 10 to 20): the too-old
record sits at position 1 of page 2, so exactly 2 of the 20 allowed pages
are requested, the two in-window records are returned, and the record
after the too-old one (which would qualify by merge date) is not. -/
theorem claim_C2_witness :
    fetchPullRequests wPagesC2 "x" "y" (10 * 86400) (20 * 86400) =
      ([attachRepo "x/y" wIn, attachRepo "x/y" wIn2], 2) :=
  (claim_C2 wPagesC2 "x" "y" (10 * 86400) (20 * 86400) 1 1 wKold (by decide) (by decide)
      (by decide) (by decide) (by decide) (by decide)).trans (by decide)

/-! ## Claim C6: window inclusion -/

/-- Counterexample to C6 as stated: `wAfter` sits on the fetched page and
qualifies by merge date, yet the collector returns nothing, because
`wAfter` comes after the first too-old record and is never examined. -/
theorem claim_C6_counterexample :
    relevantPR (10 * 86400) (20 * 86400) wAfter = true ∧
      fetchPullRequests [[wKold, wAfter]] "x" "y" (10 * 86400) (20 * 86400) = ([], 1) := by
  decide

/-- C6 as amended: every record the collector returns satisfies the
inclusive dual window test (created inside the window, or merged inside
the window); among the records the per-page loop examines — the whole page
when no record predates the window start, otherwise everything up to and
including the first such record — a record is returned if and only if it
passes that test; and the boundaries are inclusive: a record created
exactly at the window start passes, a record created one second past the
window end (and not merged) does not. -/
theorem claim_C6 :
    (∀ (pages : List (List PR)) (owner repo : String) (s e : Nat) (r : PR),
        r ∈ (fetchPullRequests pages owner repo s e).1 → relevantPR s e r = true) ∧
      (∀ (s e : Nat) (repoId : String) (page : List PR),
        (∀ r ∈ page, s ≤ r.created_at) →
        scanPage s e repoId page =
          ((page.filter (relevantPR s e)).map (attachRepo repoId), false)) ∧
      (∀ (s e : Nat) (repoId : String) (page : List PR) (j : Nat) (K : PR),
        page[j]? = some K → (∀ r ∈ page.take j, s ≤ r.created_at) → K.created_at < s →
        scanPage s e repoId page =
          (((page.take (j + 1)).filter (relevantPR s e)).map (attachRepo repoId), true)) ∧
      (∀ (s e : Nat) (pr : PR), pr.created_at = s → s ≤ e → relevantPR s e pr = true) ∧
      (∀ (s e : Nat) (pr : PR), pr.created_at = e + 1 → pr.merged_at = none →
        relevantPR s e pr = false) := by
  refine ⟨?_, ?_, ?_, ?_, ?_⟩
  · intro pages owner repo s e r hr
    unfold fetchPullRequests at hr
    exact fetchPagesGo_mem_relevant s e (owner ++ "/" ++ repo) pages 20 0 r hr
  · intro s e repoId page h
    exact scanPage_no_old s e repoId page h
  · intro s e repoId page j K hK hpre hold
    exact scanPage_with_old s e repoId page j K hK hpre hold
  · intro s e pr hc hse
    unfold relevantPR
    simp [hc, hse]
  · intro s e pr hc hm
    unfold relevantPR
    simp [hc, hm]

/-- Witness for C6: the record created exactly at the window start passes
the test, the record created one second past the end does not, and a page
holding exactly those two yields exactly the first (repository attached)
with the early-exit flag down. -/
theorem claim_C6_witness :
    relevantPR (10 * 86400) (20 * 86400) wAtStart = true ∧
      relevantPR (10 * 86400) (20 * 86400) wPastEnd = false ∧
      scanPage (10 * 86400) (20 * 86400) "x/y" [wAtStart, wPastEnd] =
        ([attachRepo "x/y" wAtStart], false) :=
  ⟨claim_C6.2.2.2.1 (10 * 86400) (20 * 86400) wAtStart rfl (by decide),
    claim_C6.2.2.2.2 (10 * 86400) (20 * 86400) wPastEnd rfl rfl,
    (claim_C6.2.1 (10 * 86400) (20 * 86400) "x/y" [wAtStart, wPastEnd] (by decide)).trans
      (by decide)⟩


/-! ## Claim C5: review folding -/

/-- C5.  For every participants map and review record: the automation test
uses the login substring checks only (`isBotLogin` and
`isCopilotReviewer`, which reads nothing but the login — reviews carry no
title); a review in state `DISMISSED` changes nothing (no rollup created
or updated); and an unflagged, non-dismissed review ends up on its
reviewer, whose rollup is the zero-initialized one when the login had no
entry yet, with the review appended and the review count exactly one
higher, all other logins untouched. -/
theorem claim_C5 (participants : List (String × Participant)) (review : Review) :
    (review.state = "DISMISSED" →
        processReviewData [review] participants = participants) ∧
      ((isBotLogin review.login || isCopilotReviewer review.login) = true →
        processReviewData [review] participants = participants) ∧
      (isBotLogin review.login = false → isCopilotReviewer review.login = false →
        review.state ≠ "DISMISSED" →
        (mapGet (processReviewData [review] participants) review.login =
            some { ((mapGet participants review.login).getD (freshReviewParticipant review)) with
              reviews :=
                ((mapGet participants review.login).getD (freshReviewParticipant review)).reviews
                  ++ [reviewView review]
              reviewCount :=
                ((mapGet participants review.login).getD
                  (freshReviewParticipant review)).reviewCount + 1 }) ∧
          ∀ v, v ≠ review.login →
            mapGet (processReviewData [review] participants) v = mapGet participants v) := by
  have hstep : processReviewData [review] participants = reviewStep participants review := rfl
  refine ⟨?_, ?_, ?_⟩
  · intro hdis
    rw [hstep]
    unfold reviewStep
    rw [if_neg ?_]
    simp [hdis]
  · intro hflag
    rw [hstep]
    unfold reviewStep
    rw [if_neg ?_]
    rcases Bool.or_eq_true _ _ |>.mp hflag with h | h <;> simp [h]
  · intro hbot hcop hdis
    have hdis2 : (review.state == "DISMISSED") = false := by
      exact beq_eq_false_iff_ne.mpr hdis
    rw [hstep]
    unfold reviewStep
    rw [if_pos (by simp [hbot, hcop, hdis2])]
    cases hget : mapGet participants review.login with
    | some p =>
      simp only [hget, Option.isSome_some, if_true, Option.getD_some]
      constructor
      · exact mapGet_mapSet_self _ _ _
      · intro v hv
        exact mapGet_mapSet_ne _ _ _ _ (fun h => hv h.symm)
    | none =>
      simp only [hget, Option.isSome_none, Bool.false_eq_true, if_false, Option.getD_none]
      rw [mapGet_mapSet_self]
      constructor
      · exact mapGet_mapSet_self _ _ _
      · intro v hv
        rw [mapGet_mapSet_ne _ _ _ _ (fun h => hv h.symm),
          mapGet_mapSet_ne _ _ _ _ (fun h => hv h.symm)]

/-- Witness for C5: a dismissed review leaves an empty map empty; an
approved review by carol lands on a zero-initialized rollup with review
count one and the stored copy carrying the pull-request link; another
login is unaffected. -/
theorem claim_C5_witness :
    processReviewData [wRevDism] [] = [] ∧
      mapGet (processReviewData [wRev] []) "carol" =
        some { ((mapGet ([] : List (String × Participant)) "carol").getD
            (freshReviewParticipant wRev)) with
          reviews := ((mapGet ([] : List (String × Participant)) "carol").getD
            (freshReviewParticipant wRev)).reviews ++ [reviewView wRev]
          reviewCount := ((mapGet ([] : List (String × Participant)) "carol").getD
            (freshReviewParticipant wRev)).reviewCount + 1 } ∧
      mapGet (processReviewData [wRev] []) "dave" = mapGet ([] : List (String × Participant)) "dave" :=
  ⟨(claim_C5 [] wRevDism).1 rfl,
    ((claim_C5 [] wRev).2.2 (by decide) (by decide) (by decide)).1,
    ((claim_C5 [] wRev).2.2 (by decide) (by decide) (by decide)).2 "dave" (by decide)⟩

end GH
